import Mathlib

/-!
Verification of the natural-language-to-calendar-event core of the
telegram-bot-calendar repository, as a shallow embedding in Lean 4.

Conventions of the embedding:

* Instants are modelled as `Int` values counting seconds of local
  wall-clock time since the JS epoch (1970-01-01 00:00, a Thursday).
  The JS code computes with `Date` values in one timezone and then
  formats them with second precision; formatting is order-preserving,
  so claims about the produced ranges are stated on the instants.
* `Int` division `/` in Lean is Euclidean division, which agrees with
  floor division (JS `Math.floor`, date-fns day truncation) whenever
  the divisor is positive, as it always is below.
* The generative-AI collaborator (`generateJSON` in gemini_client.js)
  is modelled as an explicit `Option`-valued argument: `none` is a
  collaborator failure (a thrown error), `some r` is the parsed JSON
  object `r`.  Functions that may call the collaborator also return a
  `Bool` recording whether the collaborator was consulted.
* JS falsiness of an optional string field (`!x`) is `none` or `""`.
-/

/-- Lowercasing of a character as done by JS `String.prototype.toLowerCase`
on the ASCII range (the only range the shortcut table exercises). -/
def jsLowerChar (c : Char) : Char :=
  if 'A' ≤ c && c ≤ 'Z' then Char.ofNat (c.toNat + 32) else c

/-- Whitespace test used by JS `String.prototype.trim` (restricted to the
common ASCII whitespace characters). -/
def jsIsWs (c : Char) : Bool :=
  c = ' ' || c = '\t' || c = '\n' || c = '\r'

/-- Model of JS `String.prototype.trim` on a character list. -/
def jsTrimList (l : List Char) : List Char :=
  ((l.dropWhile jsIsWs).reverse.dropWhile jsIsWs).reverse

/-- Model of `expression.toLowerCase().trim()` from parse_time_range.js,
line 75, producing the character list of the normalized expression. -/
def jsNormalize (s : String) : List Char :=
  jsTrimList (s.data.map jsLowerChar)

/-- date-fns `startOfDay`: truncate an instant to midnight of its day. -/
def startOfDay (t : Int) : Int := 86400 * (t / 86400)

/-- date-fns `endOfDay`: 23:59:59 of the instant's day (the JS value is
23:59:59.999; at the second granularity used by the output format string
`yyyy-MM-dd'T'HH:mm:ss` this is 23:59:59). -/
def endOfDay (t : Int) : Int := startOfDay t + 86399

/-- date-fns `addDays`. -/
def addDays (t : Int) (n : Int) : Int := t + n * 86400

/-- date-fns `addWeeks`. -/
def addWeeks (t : Int) (n : Int) : Int := t + n * 7 * 86400

/-- JS `Date.prototype.getDay`: 0 = Sunday, …, 6 = Saturday.  The epoch
day 1970-01-01 was a Thursday (= 4). -/
def jsGetDay (t : Int) : Int := (t / 86400 + 4) % 7

/-- date-fns `startOfWeek(t, weekStartsOn = 1)`: midnight of the Monday
of `t`'s week (`(getDay + 6) % 7` days back). -/
def startOfWeekMon (t : Int) : Int := startOfDay (addDays t (-((jsGetDay t + 6) % 7)))

/-- date-fns `endOfWeek(t, weekStartsOn = 1)`: 23:59:59 of the Sunday of
`t`'s week, i.e. the end of the sixth day after the week's Monday. -/
def endOfWeekMon (t : Int) : Int := endOfDay (addDays (startOfWeekMon t) 6)

/-- The range object produced by parse_time_range.js: start and end
instants (the code emits them as local date-time strings, modelled here
as instants), a human label and a confidence level. -/
structure TimeRange where
  startInstant : Int
  endInstant : Int
  description : String
  confidence : String
  deriving DecidableEq

/-- Model of `parseQuickShortcuts` (parse_time_range.js, lines 74-135):
the fixed table of literal shortcuts, resolved without the AI
collaborator, always with confidence "high". -/
def parseQuickShortcuts (expression : String) (now : Int) : Option TimeRange :=
  let normalized := jsNormalize expression
  if normalized = "today".data then
    some ⟨startOfDay now, endOfDay now, "today", "high"⟩
  else if normalized = "tomorrow".data then
    some ⟨startOfDay (addDays now 1), endOfDay (addDays now 1), "tomorrow", "high"⟩
  else if normalized = "yesterday".data then
    some ⟨startOfDay (addDays now (-1)), endOfDay (addDays now (-1)), "yesterday", "high"⟩
  else if normalized = "this week".data ∨ normalized = "week".data then
    some ⟨startOfWeekMon now, endOfWeekMon now, "this week", "high"⟩
  else if normalized = "next week".data then
    some ⟨addWeeks (startOfWeekMon now) 1, endOfWeekMon (addWeeks (startOfWeekMon now) 1),
          "next week", "high"⟩
  else if normalized = "this weekend".data then
    let dayOfWeek := jsGetDay now
    let daysUntilSaturday := if dayOfWeek ≤ 6 then 6 - dayOfWeek else 0
    let saturday := addDays now daysUntilSaturday
    some ⟨startOfDay saturday, endOfDay (addDays saturday 1), "this weekend", "high"⟩
  else
    none

/-- The JSON object the AI collaborator returns on the fallback path of
`parseTimeRange`: optional day numbers for `startDate`/`endDate`,
optional minutes-of-day for `startTime`/`endTime`, and the optional
`confidence` and `description` strings. -/
structure AIRangeResponse where
  startDate : Option Int
  endDate : Option Int
  startTime : Option Int
  endTime : Option Int
  confidence : Option String
  description : Option String
  deriving DecidableEq

/-- Composition `date + "T" + time (+ seconds)` interpreted as an
instant: used for the strings built on parse_time_range.js lines 53-54. -/
def composeInstant (day : Int) (minutes : Int) (seconds : Int) : Int :=
  day * 86400 + minutes * 60 + seconds

/-- The literal shortcut table of the spec (the seven normalized forms
handled by `parseQuickShortcuts`). -/
def shortcutTable : List (List Char) :=
  ["today".data, "tomorrow".data, "yesterday".data, "this week".data,
   "week".data, "next week".data, "this weekend".data]

/-- Model of `parseTimeRange` (parse_time_range.js, lines 11-66).  The
second component of the result records whether the AI collaborator
(`generateJSON`) was invoked.  On the fallback path a missing
`startDate`/`endDate` is rejected (line 48), `startTime` defaults to
00:00, `endTime` to 23:59 with seconds `:59` (lines 53-54), the
description defaults to the raw expression and the confidence to
"medium" (lines 59-60). -/
def parseTimeRange (timeExpression : String) (now : Int) (oracle : Option AIRangeResponse) :
    Except String TimeRange × Bool :=
  match parseQuickShortcuts timeExpression now with
  | some quickParse => (Except.ok quickParse, false)
  | none =>
    match oracle with
    | none => (Except.error "Failed to parse time range: generator error", true)
    | some result =>
      match result.startDate, result.endDate with
      | some sd, some ed =>
          (Except.ok ⟨composeInstant sd (result.startTime.getD 0) 0,
                      composeInstant ed (result.endTime.getD 1439) 59,
                      result.description.getD timeExpression,
                      result.confidence.getD "medium"⟩, true)
      | _, _ => (Except.error "Failed to parse time range: Missing required date fields", true)

lemma jsGetDay_nonneg (t : Int) : 0 ≤ jsGetDay t := by
  unfold jsGetDay; omega

lemma jsGetDay_le_six (t : Int) : jsGetDay t ≤ 6 := by
  unfold jsGetDay; omega

/-- Every normalized expression in the shortcut table resolves on the
shortcut path, with confidence "high". -/
lemma quickShortcuts_of_mem (expression : String) (now : Int)
    (h : jsNormalize expression ∈ shortcutTable) :
    ∃ r, parseQuickShortcuts expression now = some r ∧ r.confidence = "high" := by
  simp only [shortcutTable, List.mem_cons, List.not_mem_nil, or_false] at h
  rcases h with h | h | h | h | h | h | h <;>
    · unfold parseQuickShortcuts
      rw [h]
      exact ⟨_, rfl, rfl⟩

/-- Any range produced on the shortcut path satisfies the ordering
invariant. -/
lemma quickShortcuts_ordered (expression : String) (now : Int) (r : TimeRange)
    (h : parseQuickShortcuts expression now = some r) :
    r.startInstant ≤ r.endInstant := by
  unfold parseQuickShortcuts at h
  dsimp only at h
  split at h
  · cases h
    simp only [startOfDay, endOfDay]
    omega
  · split at h
    · cases h
      simp only [startOfDay, endOfDay]
      omega
    · split at h
      · cases h
        simp only [startOfDay, endOfDay]
        omega
      · split at h
        · cases h
          simp only [startOfWeekMon, endOfWeekMon, startOfDay, endOfDay, addDays]
          omega
        · split at h
          · cases h
            simp only [startOfWeekMon, endOfWeekMon, startOfDay, endOfDay, addDays, addWeeks]
            omega
          · split at h
            · cases h
              simp only [startOfDay, endOfDay, addDays]
              omega
            · cases h

/-- C2: for every input whose trimmed, lowercased form is one of the
literal shortcuts, `parseTimeRange` returns the same result for every
collaborator behaviour (so the AI text-parsing collaborator is never
consulted — the invocation flag is `false`), and the result is a range
with confidence "high", determined by the input and `now` alone. -/
theorem c2_shortcut_path (expression : String) (now : Int) (o₁ o₂ : Option AIRangeResponse)
    (h : jsNormalize expression ∈ shortcutTable) :
    parseTimeRange expression now o₁ = parseTimeRange expression now o₂ ∧
    (parseTimeRange expression now o₁).2 = false ∧
    ∃ r, (parseTimeRange expression now o₁).1 = Except.ok r ∧ r.confidence = "high" := by
  obtain ⟨r, hq, hc⟩ := quickShortcuts_of_mem expression now h
  unfold parseTimeRange
  rw [hq]
  exact ⟨rfl, rfl, r, rfl, hc⟩

/-- Witness for C2 at the concrete input "  Today " (upper case and
surrounding whitespace exercised), `now = 0`, and two different
collaborator behaviours. -/
theorem c2_shortcut_path_witness :
    (jsNormalize "  Today " ∈ shortcutTable) ∧
    parseTimeRange "  Today " 0 none =
      parseTimeRange "  Today " 0 (some ⟨none, none, none, none, none, none⟩) ∧
    (parseTimeRange "  Today " 0 none).2 = false := by
  have h : jsNormalize "  Today " ∈ shortcutTable := by decide
  obtain ⟨heq, hflag, -⟩ :=
    c2_shortcut_path "  Today " 0 none (some ⟨none, none, none, none, none, none⟩) h
  exact ⟨h, heq, hflag⟩

/-- C5 counterexample: on the AI-delegation path the code checks only
that `startDate` and `endDate` are present (parse_time_range.js line
48) and composes the instants without any ordering check, so a
well-formed collaborator response whose `endDate` precedes its
`startDate` (here: start day 10, end day 0) yields a returned
`TimeRange` with `startInstant > endInstant`, refuting the invariant as
claimed. -/
theorem c5_counterexample :
    (parseTimeRange "first third of june" 0
        (some ⟨some 10, some 0, none, none, none, none⟩)).1 =
      Except.ok ⟨864000, 86399, "first third of june", "medium"⟩ ∧
    ¬ ((864000 : Int) ≤ 86399) :=
  ⟨rfl, by decide⟩

/-- C5 (amended): every range returned via the literal-shortcut path
satisfies `startInstant ≤ endInstant`; a range returned via the
AI-delegation path satisfies it provided the collaborator's composed
start (startDate + startTime, defaulting to 00:00) does not exceed its
composed end (endDate + endTime, defaulting to 23:59:59) — the code
itself performs no ordering check on that path. -/
theorem c5_amended (expression : String) (now : Int) (oracle : Option AIRangeResponse)
    (r : TimeRange)
    (hok : (parseTimeRange expression now oracle).1 = Except.ok r)
    (hai : ∀ resp sd ed, parseQuickShortcuts expression now = none → oracle = some resp →
      resp.startDate = some sd → resp.endDate = some ed →
      composeInstant sd (resp.startTime.getD 0) 0 ≤ composeInstant ed (resp.endTime.getD 1439) 59) :
    r.startInstant ≤ r.endInstant := by
  cases hq : parseQuickShortcuts expression now with
  | some q =>
      have hthis : (parseTimeRange expression now oracle).1 = Except.ok q := by
        unfold parseTimeRange
        rw [hq]
      rw [hthis] at hok
      injection hok with hqr
      subst hqr
      exact quickShortcuts_ordered expression now q hq
  | none =>
      unfold parseTimeRange at hok
      rw [hq] at hok
      cases oracle with
      | none => simp at hok
      | some resp =>
          dsimp only at hok
          cases hsd : resp.startDate with
          | none =>
              rw [hsd] at hok
              simp at hok
          | some sd =>
              cases hed : resp.endDate with
              | none =>
                  rw [hsd, hed] at hok
                  simp at hok
              | some ed =>
                  rw [hsd, hed] at hok
                  dsimp only at hok
                  injection hok with hqr
                  subst hqr
                  exact hai resp sd ed hq rfl hsd hed

/-- Witness for C5 (amended) at the shortcut input "today", `now = 0`,
with no collaborator: the returned range is 00:00:00-23:59:59 of day 0
and the invariant holds there. -/
theorem c5_amended_witness :
    (parseTimeRange "today" 0 none).1 = Except.ok ⟨0, 86399, "today", "high"⟩ ∧
    (0 : Int) ≤ 86399 :=
  ⟨rfl, c5_amended "today" 0 none ⟨0, 86399, "today", "high"⟩ rfl
    (fun _ _ _ hnone _ _ _ => absurd hnone (by decide))⟩

/-- C8: for every `now`, the shortcut "this weekend" resolves to the
range whose start is midnight of the day `6 - getDay now` days ahead —
that day is a Saturday, and no earlier day (today included) is one, so
it is the next occurring Saturday, today counting when it is a Saturday
(`getDay now = 6` gives offset 0) — and whose end is 23:59:59 of the
following day, a Sunday.  A Wednesday `now` has `getDay now = 3`, so
the start is then Saturday of the same week, three days ahead. -/
theorem c8_this_weekend (now : Int) :
    parseQuickShortcuts "this weekend" now =
      some ⟨startOfDay (addDays now (6 - jsGetDay now)),
            startOfDay (addDays now (6 - jsGetDay now)) + 172799,
            "this weekend", "high"⟩ ∧
    jsGetDay (addDays now (6 - jsGetDay now)) = 6 ∧
    (∀ e : Int, 0 ≤ e → e < 6 - jsGetDay now → jsGetDay (addDays now e) ≠ 6) ∧
    jsGetDay (startOfDay (addDays now (6 - jsGetDay now)) + 172799) = 0 ∧
    (startOfDay (addDays now (6 - jsGetDay now)) + 172799) % 86400 = 86399 ∧
    startOfDay (addDays now (6 - jsGetDay now)) % 86400 = 0 := by
  have h6 : jsGetDay now ≤ 6 := jsGetDay_le_six now
  refine ⟨?_, ?_, ?_, ?_, ?_, ?_⟩
  · unfold parseQuickShortcuts
    dsimp only
    rw [if_neg (by decide), if_neg (by decide), if_neg (by decide), if_neg (by decide),
      if_neg (by decide), if_pos (by decide), if_pos h6]
    simp only [Option.some.injEq, TimeRange.mk.injEq, and_true, true_and]
    simp only [startOfDay, endOfDay, addDays]
    omega
  · simp only [jsGetDay, addDays]
    omega
  · intro e he hlt
    simp only [jsGetDay, addDays] at hlt ⊢
    omega
  · simp only [jsGetDay, startOfDay, addDays]
    omega
  · simp only [jsGetDay, startOfDay, addDays]
    omega
  · simp only [jsGetDay, startOfDay, addDays]
    omega

/-- Witness for C8 at `now = 518400` (1970-01-07, a Wednesday): the
range starts at 777600 (midnight of Saturday 1970-01-10, three days
ahead) and ends at 950399 (Sunday 23:59:59), and neither of the two
nearer days is a Saturday. -/
theorem c8_this_weekend_witness :
    jsGetDay 518400 = 3 ∧
    parseQuickShortcuts "this weekend" 518400 =
      some ⟨777600, 950399, "this weekend", "high"⟩ ∧
    jsGetDay (addDays 518400 0) ≠ 6 ∧ jsGetDay (addDays 518400 2) ≠ 6 := by
  obtain ⟨h1, -, h3, -, -, -⟩ := c8_this_weekend 518400
  refine ⟨by decide, ?_, h3 0 (by decide) (by decide), h3 2 (by decide) (by decide)⟩
  rw [h1]
  decide

/-- The JSON object the AI collaborator returns for event extraction
(parse_event_details.js): optional fields as delivered, with dates as
day numbers and times as minutes of the day.  `confidence` is carried
verbatim (the code never checks it before the past-date override). -/
structure AIEventResponse where
  summary : Option String
  description : Option String
  date : Option Int
  startTime : Option Nat
  endTime : Option Nat
  confidence : String
  ambiguities : Option (List String)
  deriving DecidableEq

/-- The structured event draft returned by a successful extraction:
the (possibly mutated) AI response object. -/
structure EventDraft where
  summary : String
  description : Option String
  date : Int
  startTime : Nat
  endTime : Nat
  confidence : String
  ambiguities : Option (List String)
  deriving DecidableEq

/-- The ambiguity note appended by the past-date override
(parse_event_details.js line 54). -/
def pastNote : String := "Event date appears to be in the past"

/-- Model of `parseEventDetails` (parse_event_details.js, lines 11-70).
Order of the source checks is preserved: required fields (line 46,
falsiness: an absent field or an empty summary fails), then the
past-date override (lines 51-56: append the ambiguity note and force
confidence "low"), then the end-after-start check (lines 59-63), which
throws rather than auto-correcting. -/
def parseEventDetails (oracle : Option AIEventResponse) (now : Int) : Except String EventDraft :=
  match oracle with
  | none => Except.error "Failed to parse event details: generator error"
  | some result =>
    match result.summary, result.date, result.startTime, result.endTime with
    | some s, some d, some st, some et =>
      if s = "" then
        Except.error "Failed to parse event details: Missing required fields in parsed event"
      else
        let eventDate := d * 86400 + (st : Int) * 60
        let ambiguities :=
          if eventDate < now then some (result.ambiguities.getD [] ++ [pastNote])
          else result.ambiguities
        let confidence := if eventDate < now then "low" else result.confidence
        if et ≤ st then
          Except.error "Failed to parse event details: End time must be after start time"
        else
          Except.ok ⟨s, result.description, d, st, et, confidence, ambiguities⟩
    | _, _, _, _ =>
      Except.error "Failed to parse event details: Missing required fields in parsed event"

/-- C3: whenever the AI-returned draft has `endTime` equal to or
earlier than `startTime` (as wall-clock times, modelled as minutes of
the day), extraction fails with an error: no draft is returned and
nothing is auto-corrected.  Equality is covered since `et ≤ st`
includes `et = st`. -/
theorem c3_end_le_start_fails (resp : AIEventResponse) (now : Int) (st et : Nat)
    (hst : resp.startTime = some st) (het : resp.endTime = some et) (hle : et ≤ st) :
    ∃ msg, parseEventDetails (some resp) now = Except.error msg := by
  unfold parseEventDetails
  dsimp only
  rw [hst, het]
  cases hs : resp.summary with
  | none => exact ⟨_, rfl⟩
  | some s =>
    cases hd : resp.date with
    | none => exact ⟨_, rfl⟩
    | some d =>
      dsimp only
      by_cases hse : s = ""
      · rw [if_pos hse]
        exact ⟨_, rfl⟩
      · rw [if_neg hse, if_pos hle]
        exact ⟨_, rfl⟩

/-- Witness for C3 at a concrete response with `endTime = startTime`
(10:00-10:00): extraction fails. -/
theorem c3_end_le_start_fails_witness :
    (600 : Nat) ≤ 600 ∧
    ∃ msg, parseEventDetails
      (some ⟨some "Standup", none, some 20000, some 600, some 600, "high", none⟩) 0 =
        Except.error msg :=
  ⟨Nat.le_refl 600,
   c3_end_le_start_fails ⟨some "Standup", none, some 20000, some 600, some 600, "high", none⟩
     0 600 600 rfl rfl (Nat.le_refl 600)⟩

/-- C4: every draft returned by extraction whose computed start instant
(date combined with startTime) is earlier than `now` carries
confidence "low" and an ambiguities list containing the past-date
note, regardless of the confidence the AI collaborator reported. -/
theorem c4_past_override (resp : AIEventResponse) (now : Int) (d : EventDraft)
    (hok : parseEventDetails (some resp) now = Except.ok d)
    (hpast : d.date * 86400 + (d.startTime : Int) * 60 < now) :
    d.confidence = "low" ∧ ∃ l, d.ambiguities = some l ∧ pastNote ∈ l := by
  unfold parseEventDetails at hok
  dsimp only at hok
  cases hs : resp.summary with
  | none =>
    rw [hs] at hok
    simp at hok
  | some s =>
    cases hd : resp.date with
    | none =>
      rw [hs, hd] at hok
      simp at hok
    | some dd =>
      cases hst : resp.startTime with
      | none =>
        rw [hs, hd, hst] at hok
        simp at hok
      | some st =>
        cases het : resp.endTime with
        | none =>
          rw [hs, hd, hst, het] at hok
          simp at hok
        | some et =>
          rw [hs, hd, hst, het] at hok
          dsimp only at hok
          by_cases hse : s = ""
          · rw [if_pos hse] at hok
            simp at hok
          · rw [if_neg hse] at hok
            by_cases hle : et ≤ st
            · rw [if_pos hle] at hok
              simp at hok
            · rw [if_neg hle] at hok
              injection hok with h
              subst h
              dsimp only at hpast ⊢
              rw [if_pos hpast, if_pos hpast]
              exact ⟨rfl, resp.ambiguities.getD [] ++ [pastNote], rfl, by simp⟩

/-- Witness for C4: a response dated in the past (day 0, 09:00, with
`now` ten days later) reported with confidence "high" comes back with
confidence "low" and the past-date ambiguity note appended. -/
theorem c4_past_override_witness :
    parseEventDetails (some ⟨some "Meeting", none, some 0, some 540, some 600, "high", none⟩)
        864000 =
      Except.ok ⟨"Meeting", none, 0, 540, 600, "low", some [pastNote]⟩ ∧
    ((⟨"Meeting", none, 0, 540, 600, "low", some [pastNote]⟩ : EventDraft).confidence = "low" ∧
      ∃ l, (⟨"Meeting", none, 0, 540, 600, "low", some [pastNote]⟩ : EventDraft).ambiguities =
        some l ∧ pastNote ∈ l) :=
  ⟨rfl, c4_past_override ⟨some "Meeting", none, some 0, some 540, some 600, "high", none⟩
    864000 ⟨"Meeting", none, 0, 540, 600, "low", some [pastNote]⟩ rfl (by decide)⟩

/-- Decimal digit test, JS regex `\d`. -/
def isDigitCh (c : Char) : Bool := '0' ≤ c && c ≤ '9'

/-- Numeric value of a decimal digit character. -/
def digitVal (c : Char) : Nat := c.toNat - 48

/-- Model of the regex `/^\d{4}-\d{2}-\d{2}$/` from create_calendar_event.js
line 101. -/
def datePattern (s : String) : Bool :=
  match s.data with
  | [y1, y2, y3, y4, c1, m1, m2, c2, d1, d2] =>
      isDigitCh y1 && isDigitCh y2 && isDigitCh y3 && isDigitCh y4 && c1 == '-' &&
      isDigitCh m1 && isDigitCh m2 && c2 == '-' && isDigitCh d1 && isDigitCh d2
  | _ => false

/-- Model of the regex `/^\d{2}:\d{2}$/` from create_calendar_event.js
lines 106 and 110. -/
def timePattern (s : String) : Bool :=
  match s.data with
  | [h1, h2, c, m1, m2] =>
      isDigitCh h1 && isDigitCh h2 && c == ':' && isDigitCh m1 && isDigitCh m2
  | _ => false

/-- Model of `new Date('2000-01-01T' + s + ':00')` as minutes of the day:
per the ECMAScript date-time string format, hours 00-23 with minutes
00-59 are accepted, the special form 24:00 is accepted as the end of the
day, and any other out-of-range component yields an Invalid Date
(`none`; every NaN comparison is false).  Strings not of the `dd:dd`
shape are likewise modelled as Invalid; any such string already fails
the HH:MM format check, so the error list is non-empty in those cases
regardless of this branch. -/
def jsParseTime2000 (s : String) : Option Nat :=
  match s.data with
  | [h1, h2, c, m1, m2] =>
      if isDigitCh h1 && isDigitCh h2 && c == ':' && isDigitCh m1 && isDigitCh m2 then
        let h := 10 * digitVal h1 + digitVal h2
        let m := 10 * digitVal m1 + digitVal m2
        if h ≤ 23 && m ≤ 59 then some (60 * h + m)
        else if h == 24 && m == 0 then some 1440
        else none
      else none
  | _ => none

/-- Gregorian leap-year test. -/
def isLeapYear (y : Nat) : Bool := (y % 4 == 0 && y % 100 != 0) || y % 400 == 0

/-- Length of a month in the Gregorian calendar. -/
def daysInMonth (y m : Nat) : Nat :=
  if m == 2 then (if isLeapYear y then 29 else 28)
  else if m == 4 || m == 6 || m == 9 || m == 11 then 30
  else 31

/-- Days contributed by the months before month `m` of year `y`. -/
def daysBeforeMonthSum (y m : Nat) : Nat :=
  ((List.range (m - 1)).map (fun i => daysInMonth y (i + 1))).sum

/-- Number of leap years among the years before `y` (proleptic
Gregorian, year 0 is a leap year). -/
def leapsBefore (y : Nat) : Nat :=
  if y = 0 then 0 else (y - 1) / 4 - (y - 1) / 100 + (y - 1) / 400 + 1

/-- Day number of a Gregorian calendar date, counted from 0000-01-01. -/
def civilDayNumber (y m d : Nat) : Int :=
  365 * y + leapsBefore y + daysBeforeMonthSum y m + (d - 1)

/-- Day number of the JS epoch 1970-01-01. -/
def epochDayNumber : Int := civilDayNumber 1970 1 1

/-- Model of `new Date(s)` for a date-only string, as a day number
relative to the epoch (the JS value is that day's UTC midnight):
per the ECMAScript date-time string format a `YYYY-MM-DD` string with a
real calendar date is accepted and anything out of range is an Invalid
Date (`none`).  Non-ISO strings are likewise modelled as Invalid; any
such string already fails the YYYY-MM-DD format check, so the error
list is non-empty in those cases regardless of this branch. -/
def jsParseDateDay (s : String) : Option Int :=
  match s.data with
  | [y1, y2, y3, y4, c1, m1, m2, c2, d1, d2] =>
      if isDigitCh y1 && isDigitCh y2 && isDigitCh y3 && isDigitCh y4 && c1 == '-' &&
         isDigitCh m1 && isDigitCh m2 && c2 == '-' && isDigitCh d1 && isDigitCh d2 then
        let y := 1000 * digitVal y1 + 100 * digitVal y2 + 10 * digitVal y3 + digitVal y4
        let m := 10 * digitVal m1 + digitVal m2
        let d := 10 * digitVal d1 + digitVal d2
        if 1 ≤ m && m ≤ 12 && 1 ≤ d && d ≤ daysInMonth y m then
          some (civilDayNumber y m d - epochDayNumber)
        else none
      else none
  | _ => none

/-- JS truthiness of an optional string field: absent and `""` are
falsy, every other string is truthy. -/
def truthy : Option String → Bool
  | some s => !(s == "")
  | none => false

/-- The event-details object passed to the calendar-write tool
(create_calendar_event.js): all fields as optional raw strings. -/
structure EventDetails where
  summary : Option String
  description : Option String
  date : Option String
  startTime : Option String
  endTime : Option String
  deriving DecidableEq

/-- The comparison `end <= start` of create_calendar_event.js lines
115-122: both times are interpreted on the fixed date 2000-01-01; if
either is an Invalid Date the NaN comparison is false and no error is
recorded. -/
def jsEndLeStart (st et : String) : Bool :=
  match jsParseTime2000 st, jsParseTime2000 et with
  | some s, some e => decide (e ≤ s)
  | _, _ => false

/-- The days-in-past test of create_calendar_event.js lines 125-135:
`today` is the local midnight of the current day in milliseconds, the
event date is its UTC midnight in milliseconds, and the difference is
floor-divided by 86400000; an Invalid Date makes the NaN comparison
false.  The error fires when the result exceeds 1. -/
def daysInPastGT1 (ds : String) (today : Int) : Bool :=
  match jsParseDateDay ds with
  | some dn => decide ((today - dn * 86400000) / 86400000 > 1)
  | none => false

/-- Model of `validateEventData` (create_calendar_event.js, lines
85-138): a pure function of the details and the current local midnight
`today`, returning the error messages in source order. -/
def validateEventData (e : EventDetails) (today : Int) : List String :=
  (if !truthy e.summary || (jsTrimList ((e.summary.getD "").data)).isEmpty then
      ["Event must have a title"] else []) ++
  (if !truthy e.date then ["Event must have a date"] else []) ++
  (if !truthy e.startTime || !truthy e.endTime then
      ["Event must have start and end times"] else []) ++
  (if truthy e.date && !datePattern (e.date.getD "") then
      ["Date must be in YYYY-MM-DD format"] else []) ++
  (if truthy e.startTime && !timePattern (e.startTime.getD "") then
      ["Start time must be in HH:MM format"] else []) ++
  (if truthy e.endTime && !timePattern (e.endTime.getD "") then
      ["End time must be in HH:MM format"] else []) ++
  (if truthy e.startTime && truthy e.endTime &&
      jsEndLeStart (e.startTime.getD "") (e.endTime.getD "") then
      ["Event end time must be after start time"] else []) ++
  (if truthy e.date && daysInPastGT1 (e.date.getD "") today then
      ["Event date is more than 1 day in the past"] else [])

/-- The exact conditions under which the code's error list is empty,
read off from `validateEventData`: present non-blank summary, date and
times matching the digit patterns, the JS time comparison not flagging
`end <= start` (times that fail ES date parsing are skipped by that
check), and the JS date comparison not flagging more than 1 day in the
past. -/
def codeValidOK (e : EventDetails) (today : Int) : Bool :=
  truthy e.summary && !(jsTrimList ((e.summary.getD "").data)).isEmpty &&
  truthy e.date && datePattern (e.date.getD "") &&
  truthy e.startTime && timePattern (e.startTime.getD "") &&
  truthy e.endTime && timePattern (e.endTime.getD "") &&
  !jsEndLeStart (e.startTime.getD "") (e.endTime.getD "") &&
  !daysInPastGT1 (e.date.getD "") today

/-- Valid 24-hour wall-clock time `HH:MM` as minutes (hours 00-23,
minutes 00-59). -/
def wallClockMinutes (s : String) : Option Nat :=
  match s.data with
  | [h1, h2, c, m1, m2] =>
      if isDigitCh h1 && isDigitCh h2 && c == ':' && isDigitCh m1 && isDigitCh m2 then
        let h := 10 * digitVal h1 + digitVal h2
        let m := 10 * digitVal m1 + digitVal m2
        if h ≤ 23 && m ≤ 59 then some (60 * h + m) else none
      else none
  | _ => none

/-- Modelled from the spec: the validity conditions of §4.3 in the
spec's own words, for comparison with the code — non-empty summary
after trimming, a real `YYYY-MM-DD` calendar date not more than 1 day
in the past, and `HH:MM` wall-clock start/end times with the end
strictly after the start. -/
def specValidOK (e : EventDetails) (today : Int) : Bool :=
  (match e.summary with
   | some s => !(jsTrimList s.data).isEmpty
   | none => false) &&
  (match e.date.bind jsParseDateDay with
   | some dn => decide ((today - dn * 86400000) / 86400000 ≤ 1)
   | none => false) &&
  (match e.startTime.bind wallClockMinutes, e.endTime.bind wallClockMinutes with
   | some st, some et => decide (st < et)
   | _, _ => false)

lemma ite_singleton_eq_nil (c : Bool) (m : String) :
    ((if c then [m] else []) = []) ↔ c = false := by
  cases c <;> simp

/-- C6 counterexample: with summary "Meeting", date 2025-06-10 (equal
to `today`), startTime "30:00" and endTime "10:00", the validator
returns the empty list — "30:00" matches the `\d{2}:\d{2}` pattern but
is not a wall-clock time, JS date construction yields an Invalid Date,
and the NaN comparison silently skips the end-after-start check — yet
the claimed conditions fail there (the end is not strictly after the
start under any reading), refuting the claimed equivalence. -/
theorem c6_counterexample :
    validateEventData ⟨some "Meeting", none, some "2025-06-10", some "30:00", some "10:00"⟩
        ((civilDayNumber 2025 6 10 - epochDayNumber) * 86400000) = [] ∧
    specValidOK ⟨some "Meeting", none, some "2025-06-10", some "30:00", some "10:00"⟩
        ((civilDayNumber 2025 6 10 - epochDayNumber) * 86400000) = false := by
  constructor
  · decide
  · decide

/-- C6 (amended): `validateEventData` is a total function returning a
list of problems, and the list is empty exactly when: the summary is
present and non-blank after trimming, the date is present and matches
the `YYYY-MM-DD` digit pattern, both times are present and match the
`HH:MM` digit pattern, the JS comparison does not find `end <= start`
(times that fail ES date parsing, such as hour 30, skip this check
silently), and the JS day difference does not exceed 1 (dates that fail
ES parsing skip this check). -/
theorem c6_amended (e : EventDetails) (today : Int) :
    validateEventData e today = [] ↔ codeValidOK e today = true := by
  unfold validateEventData codeValidOK
  simp only [List.append_eq_nil, ite_singleton_eq_nil]
  generalize truthy e.summary = b1
  generalize (jsTrimList ((e.summary.getD "").data)).isEmpty = b2
  generalize truthy e.date = b3
  generalize datePattern (e.date.getD "") = b4
  generalize truthy e.startTime = b5
  generalize timePattern (e.startTime.getD "") = b6
  generalize truthy e.endTime = b7
  generalize timePattern (e.endTime.getD "") = b8
  generalize jsEndLeStart (e.startTime.getD "") (e.endTime.getD "") = b9
  generalize daysInPastGT1 (e.date.getD "") today = b10
  cases b1 <;> cases b2 <;> cases b3 <;> cases b4 <;> cases b5 <;> cases b6 <;>
    cases b7 <;> cases b8 <;> cases b9 <;> cases b10 <;> decide

/-- The request object `createCalendarEvent` would send to the Google
Calendar API (create_calendar_event.js, lines 33-47). -/
structure CalendarRequest where
  summary : String
  description : String
  startDateTime : String
  endDateTime : String
  deriving DecidableEq

/-- Model of `createCalendarEvent` (create_calendar_event.js, lines
15-78).  The `Bool` component records whether the calendar collaborator
was contacted (`getCalendarClient` plus `events.insert`); the
validation gate at lines 22-26 throws before either happens. -/
def createCalendarEvent (e : EventDetails) (today : Int) :
    Except String CalendarRequest × Bool :=
  let errors := validateEventData e today
  if errors.length > 0 then
    (Except.error ("Invalid event data: " ++ String.intercalate ", " errors), false)
  else
    (Except.ok ⟨e.summary.getD "",
                (match e.description with
                 | some dsc => if dsc == "" then e.summary.getD "" else dsc
                 | none => e.summary.getD ""),
                (e.date.getD "") ++ "T" ++ (e.startTime.getD "") ++ ":00",
                (e.date.getD "") ++ "T" ++ (e.endTime.getD "") ++ ":00"⟩, true)

/-- C10: whenever re-validation of the input details produces a
non-empty problem list, `createCalendarEvent` fails with the joined
validation message and never contacts the calendar collaborator — the
external-contact flag is `false`, so no client is obtained and no write
is attempted. -/
theorem c10_validation_gate (e : EventDetails) (today : Int)
    (hne : validateEventData e today ≠ []) :
    (createCalendarEvent e today).2 = false ∧
    (createCalendarEvent e today).1 =
      Except.error ("Invalid event data: " ++
        String.intercalate ", " (validateEventData e today)) := by
  unfold createCalendarEvent
  dsimp only
  rw [if_pos (List.length_pos.mpr hne)]
  exact ⟨rfl, rfl⟩

/-- Witness for C10: details missing every field fail validation and
produce an error without contacting the calendar collaborator. -/
theorem c10_validation_gate_witness :
    validateEventData ⟨none, none, none, none, none⟩ 0 ≠ [] ∧
    (createCalendarEvent ⟨none, none, none, none, none⟩ 0).2 = false :=
  ⟨by decide, (c10_validation_gate ⟨none, none, none, none, none⟩ 0 (by decide)).1⟩

/-- An entry of the pending-events map (index.js line 233): the parsed
draft plus the handle of the confirmation message. -/
structure PendingEntry where
  eventDetails : EventDraft
  messageId : Nat
  chatId : Nat
  deriving DecidableEq

/-- The in-memory `pendingEvents` map (index.js line 37), modelled as
an insertion-ordered association list keyed by the Telegram user id,
mirroring a JS `Map`. -/
abbrev Store := List (Nat × PendingEntry)

/-- JS `Map.prototype.set`: update the value in place when the key is
present (keeping insertion order), append otherwise. -/
def mapSet (s : Store) (k : Nat) (v : PendingEntry) : Store :=
  if s.any (fun p => p.1 == k) then
    s.map (fun p => if p.1 == k then (k, v) else p)
  else s ++ [(k, v)]

/-- JS `Map.prototype.get`. -/
def mapGet (s : Store) (k : Nat) : Option PendingEntry :=
  (s.find? (fun p => p.1 == k)).map Prod.snd

/-- JS `Map.prototype.delete` (ignoring the returned Boolean, which the
code never uses). -/
def mapDelete (s : Store) (k : Nat) : Store :=
  s.filter (fun p => !(p.1 == k))

/-- The `take` operation of the spec's Pending-Confirmation Store
(§4.4): read and remove in one step.  The handlers in index.js realize
it as `pendingEvents.get` followed by `pendingEvents.delete`. -/
def takeStore (s : Store) (k : Nat) : Option PendingEntry × Store :=
  (mapGet s k, mapDelete s k)

/-- The user-visible messages the confirmation handlers can send
(index.js lines 318, 331-332, 345-347 and 366); constructors stand for
the distinct literal texts of the source. -/
inductive BotMsg where
  | expired
  | created (d : EventDraft)
  | createFailed
  | cancelled
  deriving DecidableEq

/-- Result of one run of the confirm handler: the store afterwards, the
drafts passed to the calendar-write collaborator (`createCalendarEvent`
invocations, in order), and the messages sent. -/
structure ConfirmOut where
  store : Store
  calls : List EventDraft
  msgs : List BotMsg
  deriving DecidableEq

/-- Model of `handleEventConfirm` (index.js, lines 313-349) for one
approve signal.  `writeOk` is the outcome of the calendar-write
collaborator for this invocation.  The source reads the entry with
`get` (not removing it), calls `createCalendarEvent`, and only on
success — after the success message — deletes the entry (line 341); the
catch branch (lines 343-348) sends the failure message and performs no
delete. -/
def handleEventConfirm (writeOk : Bool) (s : Store) (userId : Nat) : ConfirmOut :=
  match mapGet s userId with
  | none => ⟨s, [], [BotMsg.expired]⟩
  | some pending =>
    if writeOk then
      ⟨mapDelete s userId, [pending.eventDetails], [BotMsg.created pending.eventDetails]⟩
    else
      ⟨s, [pending.eventDetails], [BotMsg.createFailed]⟩

/-- Model of `handleEventCancel` (index.js, lines 352-368): when an
entry exists it is deleted; in every case the handler sends the same
cancellation acknowledgment (line 366), never an expiration notice. -/
def handleEventCancel (s : Store) (userId : Nat) : Store × List BotMsg :=
  match mapGet s userId with
  | some _ => (mapDelete s userId, [BotMsg.cancelled])
  | none => (s, [BotMsg.cancelled])

lemma mapGet_mapSet_self (s : Store) (k : Nat) (v : PendingEntry) :
    mapGet (mapSet s k v) k = some v := by
  unfold mapGet mapSet
  by_cases h : s.any (fun p => p.1 == k)
  · rw [if_pos h]
    induction s with
    | nil => simp at h
    | cons hd tl ih =>
      simp only [List.any_cons, Bool.or_eq_true] at h
      simp only [List.map_cons]
      by_cases hk : hd.1 == k
      · rw [if_pos hk]
        rw [List.find?_cons_of_pos]
        · rfl
        · simp
      · rw [if_neg hk]
        rw [List.find?_cons_of_neg]
        · apply ih
          rcases h with h | h
          · exact absurd h hk
          · exact h
        · exact hk
  · rw [if_neg h]
    induction s with
    | nil =>
      rw [List.nil_append, List.find?_cons_of_pos]
      · rfl
      · simp
    | cons hd tl ih =>
      have h2 := h
      simp only [List.any_cons, Bool.or_eq_true, not_or] at h2
      rw [List.cons_append, List.find?_cons_of_neg]
      · exact ih (by simpa using h2.2)
      · exact h2.1

lemma mapGet_mapDelete_self (s : Store) (k : Nat) :
    mapGet (mapDelete s k) k = none := by
  unfold mapGet mapDelete
  have hfind : (s.filter fun p => !(p.1 == k)).find? (fun p => p.1 == k) = none := by
    rw [List.find?_eq_none]
    intro x hx
    have hkeep := (List.mem_filter.mp hx).2
    simp only [Bool.not_eq_eq_eq_not, Bool.not_true] at hkeep
    simp [hkeep]
  rw [hfind]
  rfl

/-- C9: putting `A` then `B` for the same user and then taking yields
`B` and never `A` (a `put` overwrites the existing entry), and `take`
removes what it returns, so a second immediate `take` yields absent. -/
theorem c9_overwrite_and_take_once (s : Store) (u : Nat) (A B : PendingEntry) :
    (takeStore (mapSet (mapSet s u A) u B) u).1 = some B ∧
    (takeStore ((takeStore (mapSet (mapSet s u A) u B) u).2) u).1 = none := by
  constructor
  · show mapGet (mapSet (mapSet s u A) u B) u = some B
    exact mapGet_mapSet_self _ _ _
  · show mapGet (mapDelete (mapSet (mapSet s u A) u B) u) u = none
    exact mapGet_mapDelete_self _ _

/-- C1 counterexample: store one pending entry for user 7 and let the
calendar write fail.  The first approve signal invokes the calendar
writer once, yet the entry is still in the store afterwards (it was
read with `get`, not removed, and the catch branch performs no delete),
so a duplicate approve signal invokes the writer a second time — two
invocations for one pending confirmation, refuting both the
remove-before-write ordering and the discard-on-failure behaviour of
the claim. -/
theorem c1_counterexample :
    (handleEventConfirm false
        (mapSet [] 7 ⟨⟨"Team meeting", none, 20159, 840, 900, "high", none⟩, 5, 9⟩)
        7).calls.length
      + (handleEventConfirm false
          (handleEventConfirm false
            (mapSet [] 7 ⟨⟨"Team meeting", none, 20159, 840, 900, "high", none⟩, 5, 9⟩)
            7).store 7).calls.length = 2 ∧
    mapGet (handleEventConfirm false
        (mapSet [] 7 ⟨⟨"Team meeting", none, 20159, 840, 900, "high", none⟩, 5, 9⟩)
        7).store 7 =
      some ⟨⟨"Team meeting", none, 20159, 840, 900, "high", none⟩, 5, 9⟩ := by
  decide

/-- C1 (amended): on an approve signal for a user with a pending entry
the handler reads the entry without removing it and invokes the
calendar writer exactly once with that draft; the entry is removed only
after a successful write, while on a failed write it stays in the store
(so only successful resolutions are at-most-once: a replay after
success finds no entry, invokes no write and reports the confirmation
expired, but a replay after failure writes again). -/
theorem c1_amended (s : Store) (u : Nat) (p : PendingEntry) (w : Bool)
    (h : mapGet s u = some p) :
    (handleEventConfirm true s u).calls = [p.eventDetails] ∧
    (handleEventConfirm true s u).store = mapDelete s u ∧
    (handleEventConfirm false s u).calls = [p.eventDetails] ∧
    (handleEventConfirm false s u).store = s ∧
    (handleEventConfirm w (mapDelete s u) u).calls = [] ∧
    (handleEventConfirm w (mapDelete s u) u).msgs = [BotMsg.expired] := by
  unfold handleEventConfirm
  rw [h, mapGet_mapDelete_self]
  exact ⟨rfl, rfl, rfl, rfl, rfl, rfl⟩

/-- Witness for C1 (amended) on a concrete one-entry store for user 3
with a successful write. -/
theorem c1_amended_witness :
    mapGet (mapSet [] 3 ⟨⟨"Lunch", none, 20200, 720, 780, "medium", none⟩, 1, 2⟩) 3 =
      some ⟨⟨"Lunch", none, 20200, 720, 780, "medium", none⟩, 1, 2⟩ ∧
    (handleEventConfirm true
        (mapSet [] 3 ⟨⟨"Lunch", none, 20200, 720, 780, "medium", none⟩, 1, 2⟩) 3).calls =
      [⟨"Lunch", none, 20200, 720, 780, "medium", none⟩] :=
  ⟨by decide,
   (c1_amended (mapSet [] 3 ⟨⟨"Lunch", none, 20200, 720, 780, "medium", none⟩, 1, 2⟩) 3
     ⟨⟨"Lunch", none, 20200, 720, 780, "medium", none⟩, 1, 2⟩ true (by decide)).1⟩

/-- C7 counterexample: a reject (cancel) signal for a user with no
pending entry leaves the store unchanged and performs no write, but the
message sent is the generic cancellation acknowledgment — the same text
as a successful cancellation — not a message telling the user the
confirmation expired, refuting the claim for reject signals. -/
theorem c7_counterexample :
    handleEventCancel [] 1 = ([], [BotMsg.cancelled]) ∧
    BotMsg.cancelled ≠ BotMsg.expired :=
  ⟨rfl, by decide⟩

/-- C7 (amended): a signal for a user with no pending entry performs no
calendar write and leaves the store unchanged; an approve signal then
produces only the confirmation-expired message, while a reject signal
produces only the generic cancellation acknowledgment. -/
theorem c7_amended (s : Store) (u : Nat) (w : Bool) (h : mapGet s u = none) :
    handleEventConfirm w s u = ⟨s, [], [BotMsg.expired]⟩ ∧
    handleEventCancel s u = (s, [BotMsg.cancelled]) := by
  unfold handleEventConfirm handleEventCancel
  rw [h]
  exact ⟨rfl, rfl⟩

/-- Witness for C7 (amended) on the empty store. -/
theorem c7_amended_witness :
    mapGet ([] : Store) 1 = none ∧
    handleEventConfirm true [] 1 = ⟨[], [], [BotMsg.expired]⟩ :=
  ⟨rfl, (c7_amended [] 1 true rfl).1⟩
